import Mathlib

/-!
Shallow embedding of the vibe-flow point-of-sale repository's deletion control,
domain/tenant resolution, route access, serverless handlers and string
sanitisation, with theorems checking the natural-language specification.

Machine model conventions: JavaScript strings become Lean String (or List Char
for character-level algorithms), nullable values become Option, database replies
become explicit records passed as inputs, and the mutable DomainManager state is
threaded explicitly.
-/

namespace VibePos

/-! ### Deletion control (src/hooks/useDeletionControl.ts)

The hook reads userRole from the auth context (null when absent) and decides
per resource type whether deletion is permitted. -/

def canDelete (userRole : Option String) (resourceType : String) : Bool :=
  -- Superadmin can delete anything
  if userRole == some "superadmin" then true
  -- Admin can delete most resources except tenants
  else if userRole == some "admin" && resourceType != "tenant" then true
  -- Manager can delete non-critical resources
  else if userRole == some "manager" &&
      ["product", "category", "supplier"].contains resourceType then true
  -- Regular users cannot delete
  else false

/-! ### Rate-limit check (supabase/functions/_shared/utils.ts, checkRateLimit)

The rpc reply is destructured into data and error; the JS strict comparison
data === true demands the boolean value true itself. -/

inductive RpcValue
  | vnull
  | vbool (b : Bool)
  | vstr (s : String)
  | vnum (n : Int)
deriving DecidableEq, Repr

structure RateLimitReply where
  data : RpcValue
  error : Option String
deriving DecidableEq, Repr

def checkRateLimit (reply : RateLimitReply) : Bool :=
  match reply.error with
  | some _ => false   -- Fail safe - block on error
  | none => reply.data == RpcValue.vbool true

/-! ### Subdomain sanitisation (supabase/functions/_shared/utils.ts)

sanitizeSubdomain lowercases, deletes characters outside [a-z0-9\s-], turns
whitespace runs into single hyphens, collapses hyphen runs, strips one leading
and one trailing hyphen, and truncates to 30 characters.  The character-level
pipeline is modelled on List Char; the case fold is the ASCII one (characters
outside the kept alphabet are deleted by the following step, so the claimed
shape properties do not depend on the case mapping). -/

def isAsciiLowerAlpha (c : Char) : Bool := c.isLower

def isAsciiDigit (c : Char) : Bool := c.isDigit

/-- The character class \\s of JavaScript regular expressions, by code point:
tab through carriage return, space, no-break space, ogham space mark, the
en-quad..hair-space block, line and paragraph separators, narrow no-break
space, medium mathematical space, ideographic space and the byte-order mark. -/
def isJsSpace (c : Char) : Bool :=
  decide ((0x09 ≤ c.toNat ∧ c.toNat ≤ 0x0d) ∨ c.toNat = 0x20 ∨ c.toNat = 0xa0 ∨
    c.toNat = 0x1680 ∨ (0x2000 ≤ c.toNat ∧ c.toNat ≤ 0x200a) ∨
    c.toNat = 0x2028 ∨ c.toNat = 0x2029 ∨ c.toNat = 0x202f ∨
    c.toNat = 0x205f ∨ c.toNat = 0x3000 ∨ c.toNat = 0xfeff)

/-- Characters kept by the deletion step replace(/[^a-z0-9\s-]/g, ''). -/
def keptChar (c : Char) : Bool :=
  isAsciiLowerAlpha c || isAsciiDigit c || isJsSpace c || c == '-'

/-- replace(/p+/g, r): each maximal run of characters satisfying p becomes the
single character r.  The flag records whether the previous character was part
of a run already replaced. -/
def collapseRunsAux (p : Char → Bool) (r : Char) : Bool → List Char → List Char
  | _, [] => []
  | inRun, c :: cs =>
    if p c then
      if inRun then collapseRunsAux p r true cs
      else r :: collapseRunsAux p r true cs
    else c :: collapseRunsAux p r false cs

def collapseRuns (p : Char → Bool) (r : Char) (l : List Char) : List Char :=
  collapseRunsAux p r false l

/-- replace(/^-|-$/g, ''): one leading and one trailing hyphen are removed. -/
def stripLeadHyphen : List Char → List Char
  | [] => []
  | c :: cs => if c == '-' then cs else c :: cs

def stripTrailHyphen (l : List Char) : List Char :=
  if l.getLast? = some '-' then l.dropLast else l

def sanitizeSubdomainL (businessName : List Char) : List Char :=
  let lowered := businessName.map Char.toLower
  let cleaned := lowered.filter keptChar
  let spaced := collapseRuns isJsSpace '-' cleaned
  let dehyphened := collapseRuns (· == '-') '-' spaced
  let stripped := stripTrailHyphen (stripLeadHyphen dehyphened)
  stripped.take 30

def sanitizeSubdomain (businessName : String) : String :=
  String.mk (sanitizeSubdomainL businessName.data)

/-- validateSubdomain from the same file: lowercase alphanumeric with interior
hyphens, length between 3 and 63. -/
def validateSubdomain (subdomain : String) : Bool :=
  let l := subdomain.data
  (match l with
   | [] => false
   | c :: rest =>
     (isAsciiLowerAlpha c || isAsciiDigit c) &&
     (match rest.getLast? with
      | none => true
      | some d =>
        (isAsciiLowerAlpha d || isAsciiDigit d) &&
        rest.all fun e => isAsciiLowerAlpha e || isAsciiDigit e || e == '-')) &&
  decide (3 ≤ l.length) && decide (l.length ≤ 63)

/-- An output character is a lowercase letter, a digit or a hyphen. -/
def subdomainChar (c : Char) : Bool :=
  isAsciiLowerAlpha c || isAsciiDigit c || c = '-'

/-- No two adjacent characters of the list are both hyphens. -/
def noDoubleHyphen : List Char → Bool
  | [] => true
  | [_] => true
  | a :: b :: rest => !(a == '-' && b == '-') && noDoubleHyphen (b :: rest)

/-- The list starts with a hyphen. -/
def headIsHyphen : List Char → Bool
  | [] => false
  | c :: _ => c == '-'


/-! String helpers over the character list, so that concrete runs reduce
inside the kernel (the built-in position-based String loops do not). -/

def charsPrefixOf : List Char → List Char → Bool
  | [], _ => true
  | _ :: _, [] => false
  | a :: as, b :: bs => a == b && charsPrefixOf as bs

def charsContains (needle : List Char) : List Char → Bool
  | [] => charsPrefixOf needle []
  | b :: bs => charsPrefixOf needle (b :: bs) || charsContains needle bs

/-- hay.includes(needle) on JavaScript strings. -/
def strIncludes (hay needle : String) : Bool := charsContains needle.data hay.data

/-- hay.endsWith(tail) on JavaScript strings. -/
def strEndsWith (hay tail : String) : Bool :=
  charsPrefixOf tail.data.reverse hay.data.reverse

/-! ### Tenant rows -/

structure TenantRow where
  id : String
  name : String
  subdomain : String
  status : String
  billing_plan_id : String
  created_by : String
deriving DecidableEq, Repr

/-- Result of a supabase query: data on success, an error record otherwise. -/
inductive QueryReply (α : Type)
  | ok (data : α)
  | err (msg : String)
deriving DecidableEq, Repr

/-- maybeSingle() resolves zero rows to null, one row to the row, and errors
when the filter matched several rows. -/
def maybeSingle (rows : List TenantRow) : QueryReply (Option TenantRow) :=
  match rows with
  | [] => .ok none
  | [t] => .ok (some t)
  | _ => .err "JSON object requested, multiple rows returned"

/-! ### NavigationService (src/services/NavigationService.ts)

The file holds two near-identical copies of the class; both are embedded.
The configured main domain of both copies is vibenet.online. -/

def nsMainDomain : String := "vibenet.online"

def nsIsSubdomain (host : String) : Bool := strEndsWith host ("." ++ nsMainDomain)

/-- domain.split('.')[0]: the characters before the first dot. -/
def subdomainLabel (host : String) : String :=
  String.mk (host.data.takeWhile fun c => c != '.')

/-- First copy of getTenantFromSubdomain (direct lookup with status in
['active','trial'], then fall back to the domain manager's resolution).
dbError stands for a failing tenants query; fallbackTenantId is the tenantId
field of the DomainConfig the domain manager produced (null when that path
failed or threw, since those exceptions are caught). -/
def getTenantFromSubdomain (host : String) (tenants : List TenantRow)
    (dbError : Option String) (fallbackTenantId : Option String) : Option String :=
  if !nsIsSubdomain host then none
  else
    let sub := subdomainLabel host
    match dbError with
    | some _ => none
    | none =>
      match maybeSingle (tenants.filter fun t =>
          t.subdomain == sub && ["active", "trial"].contains t.status) with
      | .err _ => none
      | .ok (some t) => some t.id
      | .ok none =>
        -- if (domainConfig?.tenantId) return domainConfig.tenantId; ... return null
        match fallbackTenantId with
        | some t => if t == "" then none else some t
        | none => none

/-- Second copy of getTenantFromSubdomain (status must equal 'active', no
fallback, result tenant?.id || null). -/
def getTenantFromSubdomainV2 (host : String) (tenants : List TenantRow)
    (dbError : Option String) : Option String :=
  if !nsIsSubdomain host then none
  else
    let sub := subdomainLabel host
    match dbError with
    | some _ => none
    | none =>
      match maybeSingle (tenants.filter fun t =>
          t.subdomain == sub && t.status == "active") with
      | .err _ => none
      | .ok (some t) => if t.id == "" then none else some t.id
      | .ok none => none

structure RouteConfig where
  path : String
  requiresAuth : Bool
  allowedRoles : Option (List String)
  isPublic : Bool
deriving DecidableEq, Repr

/-- The route table of the first copy of the class (the /admin series). -/
def routes : List (String × RouteConfig) := [
  ("/", ⟨"/", false, none, true⟩),
  ("/demo", ⟨"/demo", false, none, true⟩),
  ("/auth", ⟨"/auth", false, none, true⟩),
  ("/auth/callback", ⟨"/auth/callback", false, none, true⟩),
  ("/signup", ⟨"/signup", false, none, true⟩),
  ("/invite", ⟨"/invite", false, none, true⟩),
  ("/reset-password", ⟨"/reset-password", false, none, true⟩),
  ("/verify-email", ⟨"/verify-email", false, none, true⟩),
  ("/forgot-password", ⟨"/forgot-password", false, none, true⟩),
  ("/success", ⟨"/success", false, none, true⟩),
  ("/privacy-policy", ⟨"/privacy-policy", false, none, true⟩),
  ("/terms-of-service", ⟨"/terms-of-service", false, none, true⟩),
  ("/superadmin", ⟨"/superadmin", true, some ["superadmin"], false⟩),
  ("/superadmin/tenants", ⟨"/superadmin/tenants", true, some ["superadmin"], false⟩),
  ("/superadmin/users", ⟨"/superadmin/users", true, some ["superadmin"], false⟩),
  ("/admin", ⟨"/admin", true, none, false⟩),
  ("/admin/products", ⟨"/admin/products", true, none, false⟩),
  ("/admin/sales", ⟨"/admin/sales", true, none, false⟩),
  ("/admin/customers", ⟨"/admin/customers", true, none, false⟩),
  ("/admin/reports", ⟨"/admin/reports", true, none, false⟩),
  ("/admin/settings", ⟨"/admin/settings", true, none, false⟩)]

def getRouteConfig (path : String) : Option RouteConfig :=
  (routes.find? fun r => r.1 == path).map (·.2)

/-- JavaScript falsiness of an optional string: null, undefined or ''. -/
def strFalsy : Option String → Bool
  | none => true
  | some s => s == ""

def hasRouteAccess (path : String) (userRole : Option String) : Bool :=
  match getRouteConfig path with
  | none => false
  | some cfg =>
    if !cfg.requiresAuth then true
    else if strFalsy userRole then false
    else
      match cfg.allowedRoles, userRole with
      | some l, some r => l.contains r
      | some _, none => false
      | none, _ => true

/-! ### ProtectedRoute (src/components/ProtectedRoute.tsx)

The component reads user, userRole and loading from the auth context and
either shows the loading spinner, renders a client-side redirect, or renders
its children.  user is modelled by its id (any non-null object is truthy). -/

inductive RenderResult
  | spinner
  | navigate (dest : String)
  | children
deriving DecidableEq, Repr

/-- list.includes(userRole) where userRole may be null. -/
def rolesInclude (l : List String) (userRole : Option String) : Bool :=
  match userRole with
  | some r => l.contains r
  | none => false

def protectedRoute (loading : Bool) (user : Option String) (userRole : Option String)
    (allowedRoles : Option (List String)) (pathname hostname : String) : RenderResult :=
  -- Show loading while auth is initializing
  if loading then .spinner
  -- Redirect to auth if not logged in
  else if user == none then .navigate "/auth"
  -- Check role permissions: allowedRoles && userRole && !allowedRoles.includes(userRole)
  else if (match allowedRoles, userRole with
           | some l, some r => r != "" && !(l.contains r)
           | _, _ => false) then .navigate "/admin"
  -- Special handling for dashboard redirect
  else if pathname == "/dashboard" then
    (if userRole == some "superadmin" then .navigate "/superadmin"
     else if userRole == some "admin" || userRole == some "manager" then
       (if strIncludes hostname ".vibepos.shop" && hostname != "vibepos.shop"
        then .navigate "/" else .navigate "/admin")
     else .navigate "/admin")
  -- Redirect superadmin users to superadmin dashboard from any other route
  else if userRole == some "superadmin" && !pathname.startsWith "/superadmin" &&
      !pathname.startsWith "/auth" && !pathname.startsWith "/profile" then
    .navigate "/superadmin"
  -- Redirect tenant users to their dashboard from root or public pages
  else if rolesInclude ["admin", "manager", "cashier", "user"] userRole &&
      (pathname == "/" || pathname == "/demo" || pathname.startsWith "/signup" ||
       pathname.startsWith "/success") then
    .navigate "/admin"
  else .children

/-! ### DomainManager (src/lib/domain-manager.ts)

The mutable fields cache and resolving are threaded as explicit state; the
clock and the get_tenant_by_domain rpc reply are inputs.  didLookup records
whether the call issued its own database lookup. -/

def CACHE_TIMEOUT : Nat := 5 * 60 * 1000

structure CacheEntry where
  tenantId : String
  timestamp : Nat
deriving DecidableEq, Repr

structure DomainState where
  cache : List (String × CacheEntry)
  resolving : List String
deriving DecidableEq, Repr

def cacheGet (cache : List (String × CacheEntry)) (d : String) : Option CacheEntry :=
  (cache.find? fun e => e.1 == d).map (·.2)

def cacheSet (cache : List (String × CacheEntry)) (d : String) (e : CacheEntry) :
    List (String × CacheEntry) :=
  if cache.any (fun x => x.1 == d) then
    cache.map fun x => if x.1 == d then (d, e) else x
  else cache ++ [(d, e)]

def cacheFresh (e : CacheEntry) (now : Nat) : Bool :=
  decide (now - e.timestamp < CACHE_TIMEOUT)

structure RpcReply where
  data : Option String
  error : Option String
deriving DecidableEq, Repr

structure ResolveOutcome where
  result : Option String
  state : DomainState
  didLookup : Bool
deriving DecidableEq, Repr

/-- The database branch of resolveTenantFromDomain: on error return null, on
success return the reply and cache it only when it is truthy. -/
def resolveViaDb (st : DomainState) (now : Nat) (domain : String)
    (db : RpcReply) : ResolveOutcome :=
  match db.error with
  | some _ => ⟨none, st, true⟩
  | none =>
    let newCache :=
      match db.data with
      | some t => if t == "" then st.cache else cacheSet st.cache domain ⟨t, now⟩
      | none => st.cache
    ⟨db.data, { st with cache := newCache }, true⟩

def resolveTenantFromDomain (st : DomainState) (now : Nat) (domain : String)
    (db : RpcReply) : ResolveOutcome :=
  match cacheGet st.cache domain with
  | some e =>
    if cacheFresh e now then ⟨some e.tenantId, st, false⟩
    else resolveViaDb st now domain db
  | none => resolveViaDb st now domain db

structure DomainConfig where
  tenantId : Option String
  domain : String
  isCustomDomain : Bool
  isSubdomain : Bool
deriving DecidableEq, Repr

def dmIsDevDomain (d : String) : Bool :=
  d == "localhost" || strEndsWith d ".lovableproject.com"

def dmIsMainDomain (d : String) : Bool :=
  d == "vibenet.shop" || d == "www.vibenet.shop"

def parseDomain (domain : String) : DomainConfig :=
  if dmIsDevDomain domain then ⟨none, domain, false, false⟩
  else if dmIsMainDomain domain then ⟨none, domain, false, false⟩
  else if strEndsWith domain ".vibenet.shop" then ⟨none, domain, false, true⟩
  else ⟨none, domain, true, false⟩

/-- The DomainConfig rebuilt inline from a cache hit. -/
def cachedConfig (domain tenantId : String) : DomainConfig :=
  { tenantId := some tenantId
    domain := domain
    isCustomDomain := !strEndsWith domain ".vibenet.shop" && domain != "vibenet.shop" &&
      domain != "localhost" && !strEndsWith domain ".lovableproject.com"
    isSubdomain := strEndsWith domain ".vibenet.shop" && domain != "vibenet.shop" }

structure ConfigOutcome where
  config : DomainConfig
  state : DomainState
  didLookup : Bool
deriving DecidableEq, Repr

/-- The tail of getCurrentDomainConfig after all cache shortcuts: mark the
domain as resolving, query the rpc, cache a truthy result, clean up. -/
def gcdcLookup (st : DomainState) (domain : String) (now : Nat) (db : RpcReply)
    (domainInfo : DomainConfig) : ConfigOutcome :=
  let marked :=
    if st.resolving.contains domain then st.resolving else st.resolving ++ [domain]
  match db.error with
  | some _ => ⟨domainInfo, { st with resolving := marked.filter (· != domain) }, true⟩
  | none =>
    let resolvedConfig :=
      { domainInfo with tenantId :=
          match db.data with
          | some t => if t == "" then none else some t
          | none => none }
    let newCache :=
      match db.data with
      | some t => if t == "" then st.cache else cacheSet st.cache domain ⟨t, now⟩
      | none => st.cache
    ⟨resolvedConfig, { cache := newCache, resolving := marked.filter (· != domain) }, true⟩

/-- The branch taken when the initial cache check missed or was stale.  When
the domain is already being resolved by an overlapping call, the function
polls; afterWait and nowAfterWait are the state and clock observed when the
polling stops, abstracting the interleaved effects of the other call. -/
def gcdcAfterCacheCheck (st : DomainState) (domain : String)
    (afterWait : DomainState) (nowAfterWait : Nat) (db : RpcReply) : ConfigOutcome :=
  let domainInfo := parseDomain domain
  if dmIsDevDomain domain || dmIsMainDomain domain then ⟨domainInfo, st, false⟩
  else if st.resolving.contains domain then
    match cacheGet afterWait.cache domain with
    | some e =>
      if cacheFresh e nowAfterWait then ⟨cachedConfig domain e.tenantId, afterWait, false⟩
      else gcdcLookup afterWait domain nowAfterWait db domainInfo
    | none => gcdcLookup afterWait domain nowAfterWait db domainInfo
  else gcdcLookup st domain nowAfterWait db domainInfo

def getCurrentDomainConfig (st : DomainState) (now : Nat) (domain : String)
    (afterWait : DomainState) (nowAfterWait : Nat) (db : RpcReply) : ConfigOutcome :=
  match cacheGet st.cache domain with
  | some e =>
    if cacheFresh e now then ⟨cachedConfig domain e.tenantId, st, false⟩
    else gcdcAfterCacheCheck st domain afterWait nowAfterWait db
  | none => gcdcAfterCacheCheck st domain afterWait nowAfterWait db

/-- Modelled from the spec: the database function get_tenant_by_domain is not
part of src/ (only its callers are).  Per the spec, domain-to-tenant
resolution "maps a hostname to a tenant record" and a tenant is "identified
by subdomain or custom domain"; the spec states no status filter for it. -/
def get_tenant_by_domain (tenants : List TenantRow) (host : String) : Option String :=
  (tenants.find? fun t => host == t.subdomain ++ "." ++ nsMainDomain).map (·.id)


/-! ### JSON values and response helpers (supabase/functions/_shared/utils.ts)

Responses are JSON.stringify-ed records; object properties whose value is
undefined are dropped by JSON.stringify, so optional code and message fields
appear only when present.  The timestamp new Date().toISOString() is an
input. -/

inductive Json
  | jnull
  | jbool (b : Bool)
  | jstr (s : String)
  | jnum (n : Int)
  | jarr (elems : List Json)
  | jobj (fields : List (String × Json))

def jsonGet (j : Json) (key : String) : Option Json :=
  match j with
  | .jobj fields => (fields.find? fun f => f.1 == key).map (·.2)
  | _ => none

def jsTypeof : Json → String
  | .jnull => "object"
  | .jbool _ => "boolean"
  | .jstr _ => "string"
  | .jnum _ => "number"
  | .jarr _ => "object"
  | .jobj _ => "object"

def jsTruthy : Json → Bool
  | .jnull => false
  | .jbool b => b
  | .jstr s => s != ""
  | .jnum n => n != 0
  | .jarr _ => true
  | .jobj _ => true

/-- Truthiness of a possibly missing property. -/
def propTruthy : Option Json → Bool
  | none => false
  | some v => jsTruthy v

/-- typeof of a possibly missing property. -/
def jsTypeofOpt : Option Json → String
  | none => "undefined"
  | some v => jsTypeof v

structure HttpResponse where
  status : Nat
  body : Json

def createErrorResponse (ts : String) (error : String) (status : Nat)
    (code : Option String) : HttpResponse :=
  { status := status
    body := .jobj ([("success", .jbool false), ("error", .jstr error)] ++
      (match code with | some c => [("code", .jstr c)] | none => []) ++
      [("timestamp", .jstr ts)]) }

def createSuccessResponse (ts : String) (data : Json) (message : Option String) :
    HttpResponse :=
  { status := 200
    body := .jobj ([("success", .jbool true), ("data", data)] ++
      (match message with | some m => [("message", .jstr m)] | none => []) ++
      [("timestamp", .jstr ts)]) }

/-! ### unified-router (supabase/functions/unified-router/index.ts) -/

structure ValidationResult where
  valid : Bool
  error : Option String
deriving DecidableEq, Repr

def validateRouterRequest (body : Json) : ValidationResult :=
  let a := jsonGet body "action"
  if !propTruthy a || jsTypeofOpt a != "string" then
    ⟨false, some "Action is required"⟩
  else
    let d := jsonGet body "data"
    if !propTruthy d || jsTypeofOpt d != "object" then
      ⟨false, some "Data object is required"⟩
    else ⟨true, none⟩

def routerActions : List String :=
  ["create_tenant", "send_otp", "verify_otp", "send_invitation",
   "accept_invitation", "reset_password", "verify_email"]

def handleRouterRequest (ts : String) (action : String) (_data : Json) : HttpResponse :=
  match action with
  | "create_tenant" =>
    createSuccessResponse ts (.jobj [("message", .jstr "Tenant creation handled")]) none
  | "send_otp" =>
    createSuccessResponse ts (.jobj [("message", .jstr "OTP sending handled")]) none
  | "verify_otp" =>
    createSuccessResponse ts (.jobj [("message", .jstr "OTP verification handled")]) none
  | "send_invitation" =>
    createSuccessResponse ts (.jobj [("message", .jstr "Invitation sending handled")]) none
  | "accept_invitation" =>
    createSuccessResponse ts (.jobj [("message", .jstr "Invitation acceptance handled")]) none
  | "reset_password" =>
    createSuccessResponse ts (.jobj [("message", .jstr "Password reset handled")]) none
  | "verify_email" =>
    createSuccessResponse ts (.jobj [("message", .jstr "Email verification handled")]) none
  | _ =>
    createErrorResponse ts ("Unknown action: " ++ action) 400 (some "UNKNOWN_ACTION")

/-! ### create-tenant-trial (supabase/functions/create-tenant-trial/index.ts)

The three database calls (billing plan query, tenant insert, profile update)
and the non-critical role rpc can each fail; their error values and the id
the database assigns to the inserted row are inputs.  The billing-plan query
filters on is_active, orders by price descending and takes one row. -/

structure BillingPlan where
  id : String
  name : String
  price : Int
  is_active : Bool
deriving DecidableEq, Repr

structure ProfileRow where
  user_id : String
  tenant_id : Option String
  role : String
  full_name : Option String
  auth_method : Option String
deriving DecidableEq, Repr

/-- Stable insertion of a plan into a price-descending list, before the first
strictly cheaper plan. -/
def insertDesc (p : BillingPlan) : List BillingPlan → List BillingPlan
  | [] => [p]
  | q :: qs => if q.price < p.price then p :: q :: qs else q :: insertDesc p qs

def sortByPriceDesc : List BillingPlan → List BillingPlan
  | [] => []
  | p :: ps => insertDesc p (sortByPriceDesc ps)

/-- eq('is_active', true).order('price', descending).limit(1) -/
def topActivePlans (plans : List BillingPlan) : List BillingPlan :=
  (sortByPriceDesc (plans.filter fun p => p.is_active)).take 1

structure TrialDb where
  billing_plans : List BillingPlan
  profiles : List ProfileRow
deriving DecidableEq, Repr

structure TrialDbOutcome where
  plansError : Option String
  tenantInsertError : Option String
  newTenantId : String
  profileUpdateError : Option String
  roleSetupError : Option String
deriving DecidableEq, Repr

structure TrialRequest where
  userId : String
  businessName : String
  ownerName : String
  isGoogleUser : Bool
deriving DecidableEq, Repr

structure TrialResult where
  response : HttpResponse
  insertedTenant : Option TenantRow
  profiles : List ProfileRow

def tenantJson (t : TenantRow) : Json :=
  .jobj [("id", .jstr t.id), ("name", .jstr t.name), ("subdomain", .jstr t.subdomain),
    ("status", .jstr t.status), ("billing_plan_id", .jstr t.billing_plan_id),
    ("created_by", .jstr t.created_by)]

def planJson (p : BillingPlan) : Json :=
  .jobj [("id", .jstr p.id), ("name", .jstr p.name), ("price", .jnum p.price),
    ("is_active", .jbool p.is_active)]

def handleTenantRequest (db : TrialDb) (out : TrialDbOutcome) (req : TrialRequest)
    (ts : String) : TrialResult :=
  if out.plansError.isSome then
    ⟨createErrorResponse ts "No active billing plan found" 500
      (some "TENANT_CREATION_FAILED"), none, db.profiles⟩
  else
    match topActivePlans db.billing_plans with
    | [] =>
      ⟨createErrorResponse ts "No active billing plan found" 500
        (some "TENANT_CREATION_FAILED"), none, db.profiles⟩
    | highestPlan :: _ =>
      let subdomain := sanitizeSubdomain req.businessName
      match out.tenantInsertError with
      | some e =>
        ⟨createErrorResponse ts ("Failed to create tenant: " ++ e) 500
          (some "TENANT_CREATION_FAILED"), none, db.profiles⟩
      | none =>
        let tenant : TenantRow :=
          ⟨out.newTenantId, req.businessName, subdomain, "trial", highestPlan.id, req.userId⟩
        match out.profileUpdateError with
        | some e =>
          ⟨createErrorResponse ts ("Failed to update profile: " ++ e) 500
            (some "TENANT_CREATION_FAILED"), some tenant, db.profiles⟩
        | none =>
          let newProfiles := db.profiles.map fun p =>
            if p.user_id == req.userId then
              { p with
                tenant_id := some tenant.id
                role := "admin"
                full_name := some req.ownerName
                auth_method := some (if req.isGoogleUser then "google" else "email") }
            else p
          -- the setup_tenant_admin_with_unified_roles error is logged and ignored
          ⟨createSuccessResponse ts (.jobj [("success", .jbool true),
              ("message", .jstr "Tenant created successfully"),
              ("data", .jobj [("tenant", tenantJson tenant),
                ("subdomain", .jstr tenant.subdomain),
                ("plan", planJson highestPlan)])]) none,
            some tenant, newProfiles⟩

/-! ## Theorems -/

/-- C1 counterexample: deletion is not globally disabled — a superadmin is
permitted to hard-delete any resource, so canDelete does not return false for
every role and resource type. -/
theorem canDelete_superadmin_counterexample :
    canDelete (some "superadmin") "sale" = true := by rfl

/-- C1 (amended): canDelete implements a role table rather than a global
ban — it permits deletion exactly for a superadmin on any resource, an admin
on any resource other than a tenant, and a manager on products, categories
and suppliers. -/
theorem canDelete_role_table (userRole : Option String) (resourceType : String) :
    canDelete userRole resourceType = true ↔
      userRole = some "superadmin" ∨
      (userRole = some "admin" ∧ resourceType ≠ "tenant") ∨
      (userRole = some "manager" ∧
        resourceType ∈ (["product", "category", "supplier"] : List String)) := by
  unfold canDelete
  by_cases h1 : userRole = some "superadmin"
  · simp [h1]
  · by_cases h2 : userRole = some "admin"
    · by_cases h3 : resourceType = "tenant"
      · simp [h1, h2, h3]
      · simp [h1, h2, h3]
    · by_cases h4 : userRole = some "manager"
      · by_cases h5 : resourceType ∈ (["product", "category", "supplier"] : List String)
        · simp [h1, h2, h4, h5]
        · simp [h1, h2, h4, h5]
      · simp [h1, h2, h4]

theorem canDelete_role_table_witness :
    canDelete (some "admin") "product" = true :=
  (canDelete_role_table (some "admin") "product").mpr
    (Or.inr (Or.inl ⟨rfl, by decide⟩))

/-- C9: the rate-limit check allows a request exactly when the check_rate_limit
rpc call returned without error and its reply is the boolean true; every
erroring call and every non-true reply yields false, blocking the request. -/
theorem checkRateLimit_fail_safe (reply : RateLimitReply) :
    checkRateLimit reply = true ↔
      reply.error = none ∧ reply.data = RpcValue.vbool true := by
  obtain ⟨data, error⟩ := reply
  cases error <;> simp [checkRateLimit]

theorem checkRateLimit_fail_safe_witness :
    checkRateLimit ⟨RpcValue.vbool true, none⟩ = true :=
  (checkRateLimit_fail_safe ⟨RpcValue.vbool true, none⟩).mpr ⟨rfl, rfl⟩

/-- Access to a route guarded by allowedRoles = ['superadmin'] holds exactly
for the superadmin role. -/
theorem superadminRouteAccess (path : String)
    (hcfg : getRouteConfig path = some ⟨path, true, some ["superadmin"], false⟩) :
    ∀ role, (hasRouteAccess path role = true ↔ role = some "superadmin") := by
  intro role
  unfold hasRouteAccess
  rw [hcfg]
  cases role with
  | none => simp [strFalsy]
  | some r =>
    by_cases hr : r = ""
    · subst hr
      simp [strFalsy]
    · simp only [strFalsy, Bool.not_true, Bool.false_eq_true, if_false]
      rw [if_neg (by simpa using hr)]
      simp

/-- C7: route access follows the role table — public routes are open to all,
unknown paths are denied, auth-required routes are denied without a role, the
three /superadmin routes admit exactly the superadmin role, and every other
auth-required route (none of which lists allowedRoles) admits any present
role. -/
theorem hasRouteAccess_route_table :
    (∀ path cfg, getRouteConfig path = some cfg → cfg.requiresAuth = false →
      ∀ role, hasRouteAccess path role = true) ∧
    (∀ path, getRouteConfig path = none → ∀ role, hasRouteAccess path role = false) ∧
    (∀ path cfg role, getRouteConfig path = some cfg → cfg.requiresAuth = true →
      strFalsy role = true → hasRouteAccess path role = false) ∧
    (∀ role, (hasRouteAccess "/superadmin" role = true ↔ role = some "superadmin") ∧
      (hasRouteAccess "/superadmin/tenants" role = true ↔ role = some "superadmin") ∧
      (hasRouteAccess "/superadmin/users" role = true ↔ role = some "superadmin")) ∧
    (∀ path cfg role, getRouteConfig path = some cfg → cfg.requiresAuth = true →
      cfg.allowedRoles = none → strFalsy role = false → hasRouteAccess path role = true) ∧
    (∀ path cfg, getRouteConfig path = some cfg → cfg.allowedRoles ≠ none →
      path ∈ (["/superadmin", "/superadmin/tenants", "/superadmin/users"] : List String)) := by
  refine ⟨?_, ?_, ?_, ?_, ?_, ?_⟩
  · intro path cfg h hAuth role
    unfold hasRouteAccess
    rw [h]
    simp [hAuth]
  · intro path h role
    unfold hasRouteAccess
    rw [h]
  · intro path cfg role h hAuth hF
    unfold hasRouteAccess
    rw [h]
    simp [hAuth, hF]
  · intro role
    exact ⟨superadminRouteAccess "/superadmin" rfl role,
      superadminRouteAccess "/superadmin/tenants" rfl role,
      superadminRouteAccess "/superadmin/users" rfl role⟩
  · intro path cfg role h hAuth hRoles hF
    unfold hasRouteAccess
    rw [h]
    simp [hAuth, hRoles, hF]
  · intro path cfg h hne
    unfold getRouteConfig at h
    rw [Option.map_eq_some'] at h
    obtain ⟨pr, hfind, hcfg⟩ := h
    have hmem : pr ∈ routes := List.mem_of_find?_eq_some hfind
    have hpath : pr.1 = path := by
      have := List.find?_some hfind
      simpa using this
    have htable : ∀ q ∈ routes, q.2.allowedRoles ≠ none →
        q.1 ∈ (["/superadmin", "/superadmin/tenants", "/superadmin/users"] : List String) := by
      decide
    rw [← hpath]
    exact htable pr hmem (by rw [hcfg]; exact hne)

theorem hasRouteAccess_route_table_witness :
    hasRouteAccess "/admin" (some "cashier") = true ∧
    hasRouteAccess "/unknown" (some "admin") = false ∧
    hasRouteAccess "/superadmin" (some "superadmin") = true :=
  ⟨hasRouteAccess_route_table.2.2.2.2.1 "/admin" ⟨"/admin", true, none, false⟩
      (some "cashier") rfl rfl rfl rfl,
   hasRouteAccess_route_table.2.1 "/unknown" rfl (some "admin"),
   (hasRouteAccess_route_table.2.2.2.1 (some "superadmin")).1.mpr rfl⟩

/-- C6: once loading has finished, ProtectedRoute redirects to /auth whenever
user is null, redirects to /admin whenever allowedRoles is given and the
authenticated user's role is not among them, and renders its children only
when neither condition holds.  (userRole is typed as one of the five role
literals, so a present role is a non-empty string.) -/
theorem protected_route_guard :
    (∀ userRole allowedRoles pathname hostname,
      protectedRoute false none userRole allowedRoles pathname hostname =
        RenderResult.navigate "/auth") ∧
    (∀ u r l pathname hostname, r ≠ "" → r ∉ l →
      protectedRoute false (some u) (some r) (some l) pathname hostname =
        RenderResult.navigate "/admin") ∧
    (∀ user userRole allowedRoles pathname hostname,
      protectedRoute false user userRole allowedRoles pathname hostname =
        RenderResult.children →
      user ≠ none ∧
        ∀ l r, allowedRoles = some l → userRole = some r → r ≠ "" → r ∈ l) := by
  refine ⟨?_, ?_, ?_⟩
  · intro userRole allowedRoles pathname hostname
    simp [protectedRoute]
  · intro u r l pathname hostname hne hmem
    have h1 : (r != "") = true := bne_iff_ne.mpr hne
    have h2 : (l.contains r) = false := by simpa using hmem
    simp [protectedRoute, h1, h2, hmem]
  · intro user userRole allowedRoles pathname hostname h
    constructor
    · rintro rfl
      simp [protectedRoute] at h
    · rintro l r rfl rfl hne
      by_contra hmem
      have h1 : (r != "") = true := bne_iff_ne.mpr hne
      have h2 : (l.contains r) = false := by simpa using hmem
      cases user with
      | none => simp [protectedRoute] at h
      | some u => simp [protectedRoute, h1, h2, hmem] at h

theorem protected_route_guard_witness :
    protectedRoute false none (some "user") none "/admin" "x.example.com" =
      RenderResult.navigate "/auth" ∧
    protectedRoute false (some "u1") (some "cashier") (some ["superadmin"]) "/p"
      "x.example.com" = RenderResult.navigate "/admin" :=
  ⟨protected_route_guard.1 (some "user") none "/admin" "x.example.com",
   protected_route_guard.2.1 "u1" "cashier" ["superadmin"] "/p" "x.example.com"
     (by decide) (by decide)⟩

/-- The body has a string-valued property at the key. -/
def hasStringProp (body : Json) (key : String) : Prop :=
  ∃ s, jsonGet body key = some (Json.jstr s)

/-- The body has a property at the key that a JavaScript typeof test sees as a
(non-null, hence truthy) object. -/
def hasObjectProp (body : Json) (key : String) : Prop :=
  ∃ v, jsonGet body key = some v ∧ jsTypeof v = "object" ∧ jsTruthy v = true

/-- C8: the unified router rejects every request body lacking a string action
or an object data payload, answers every unhandled action string with an HTTP
400 error coded UNKNOWN_ACTION, and always produces a JSON body carrying a
boolean success field. -/
theorem unified_router_contract :
    (∀ body : Json,
      (¬ hasStringProp body "action" ∨ ¬ hasObjectProp body "data") →
      (validateRouterRequest body).valid = false) ∧
    (∀ ts action d, action ∉ routerActions →
      handleRouterRequest ts action d =
        createErrorResponse ts ("Unknown action: " ++ action) 400
          (some "UNKNOWN_ACTION") ∧
      (handleRouterRequest ts action d).status = 400 ∧
      jsonGet (handleRouterRequest ts action d).body "code" =
        some (Json.jstr "UNKNOWN_ACTION")) ∧
    (∀ ts action d, ∃ b,
      jsonGet (handleRouterRequest ts action d).body "success" =
        some (Json.jbool b)) := by
  refine ⟨?_, ?_, ?_⟩
  · intro body h
    rcases hA : jsonGet body "action" with _ | v
    · simp [validateRouterRequest, hA, propTruthy]
    · cases v with
      | jstr s =>
        by_cases hs : s = ""
        · subst hs
          simp [validateRouterRequest, hA, propTruthy, jsTruthy]
        · have hobj : ¬ hasObjectProp body "data" := by
            rcases h with h | h
            · exact absurd ⟨s, hA⟩ h
            · exact h
          rcases hD : jsonGet body "data" with _ | w
          · simp [validateRouterRequest, hA, hD, propTruthy, jsTruthy,
              jsTypeofOpt, jsTypeof, hs]
          · cases w with
            | jobj fields => exact absurd ⟨Json.jobj fields, hD, rfl, rfl⟩ hobj
            | jarr elems => exact absurd ⟨Json.jarr elems, hD, rfl, rfl⟩ hobj
            | jnull =>
              simp [validateRouterRequest, hA, hD, propTruthy, jsTruthy,
                jsTypeofOpt, jsTypeof, hs]
            | jbool b =>
              simp [validateRouterRequest, hA, hD, propTruthy, jsTruthy,
                jsTypeofOpt, jsTypeof, hs]
            | jstr s2 =>
              simp [validateRouterRequest, hA, hD, propTruthy, jsTruthy,
                jsTypeofOpt, jsTypeof, hs]
            | jnum n =>
              simp [validateRouterRequest, hA, hD, propTruthy, jsTruthy,
                jsTypeofOpt, jsTypeof, hs]
      | jnull => simp [validateRouterRequest, hA, propTruthy, jsTruthy]
      | jbool b =>
        simp [validateRouterRequest, hA, propTruthy, jsTruthy, jsTypeofOpt, jsTypeof]
      | jnum n =>
        simp [validateRouterRequest, hA, propTruthy, jsTruthy, jsTypeofOpt, jsTypeof]
      | jarr es =>
        simp [validateRouterRequest, hA, propTruthy, jsTruthy, jsTypeofOpt, jsTypeof]
      | jobj fs =>
        simp [validateRouterRequest, hA, propTruthy, jsTruthy, jsTypeofOpt, jsTypeof]
  · intro ts action d hmem
    have heq : handleRouterRequest ts action d =
        createErrorResponse ts ("Unknown action: " ++ action) 400
          (some "UNKNOWN_ACTION") := by
      unfold handleRouterRequest
      split <;> simp_all [routerActions]
    exact ⟨heq, by rw [heq]; rfl, by rw [heq]; rfl⟩
  · intro ts action d
    unfold handleRouterRequest
    split <;> first
      | exact ⟨true, rfl⟩
      | exact ⟨false, rfl⟩

theorem unified_router_contract_witness :
    (validateRouterRequest (Json.jobj [("data", Json.jobj [])])).valid = false ∧
    (handleRouterRequest "2024-01-01T00:00:00Z" "bogus" (Json.jobj [])).status = 400 ∧
    (∃ b, jsonGet
      (handleRouterRequest "2024-01-01T00:00:00Z" "bogus" (Json.jobj [])).body
      "success" = some (Json.jbool b)) :=
  ⟨unified_router_contract.1 (Json.jobj [("data", Json.jobj [])])
      (Or.inl (by rintro ⟨s, hs⟩; simp [jsonGet] at hs)),
   (unified_router_contract.2.1 "2024-01-01T00:00:00Z" "bogus" (Json.jobj [])
      (by decide)).2.1,
   unified_router_contract.2.2 "2024-01-01T00:00:00Z" "bogus" (Json.jobj [])⟩

/-! Cache helper lemmas. -/

theorem cacheGet_cons (x : String × CacheEntry) (xs : List (String × CacheEntry))
    (d : String) :
    cacheGet (x :: xs) d =
      if (x.1 == d) = true then some x.2 else cacheGet xs d := by
  unfold cacheGet
  rw [List.find?_cons]
  rcases h : (x.1 == d) with _ | _ <;> simp [h]

theorem cacheSet_cons (x : String × CacheEntry) (xs : List (String × CacheEntry))
    (d : String) (e : CacheEntry) :
    cacheSet (x :: xs) d e =
      if (x.1 == d) = true then
        (d, e) :: xs.map (fun y => if (y.1 == d) = true then (d, e) else y)
      else x :: cacheSet xs d e := by
  by_cases hx : (x.1 == d) = true
  · have hany : ((x :: xs).any fun y => y.1 == d) = true := by
      simp only [List.any_cons, Bool.or_eq_true]
      exact Or.inl hx
    rw [if_pos hx]
    unfold cacheSet
    rw [if_pos hany, List.map_cons, if_pos hx]
  · by_cases h2 : xs.any (fun y => y.1 == d) = true
    · have hany : ((x :: xs).any fun y => y.1 == d) = true := by
        simp only [List.any_cons, Bool.or_eq_true]
        exact Or.inr h2
      rw [if_neg hx]
      unfold cacheSet
      rw [if_pos hany, if_pos h2, List.map_cons, if_neg hx]
    · have hany : ((x :: xs).any fun y => y.1 == d) = false := by
        simp only [List.any_cons, Bool.or_eq_false_iff]
        exact ⟨eq_false_of_ne_true hx, eq_false_of_ne_true h2⟩
      rw [if_neg hx]
      unfold cacheSet
      rw [if_neg (by simp [hany]), if_neg h2]
      rfl

theorem cacheGet_set_self (d : String) (e : CacheEntry) :
    ∀ c, cacheGet (cacheSet c d e) d = some e := by
  intro c
  induction c with
  | nil =>
    have h : cacheSet [] d e = [(d, e)] := by simp [cacheSet]
    rw [h, cacheGet_cons]
    simp
  | cons x xs ih =>
    rw [cacheSet_cons]
    by_cases hx : (x.1 == d) = true
    · rw [if_pos hx, cacheGet_cons]
      simp
    · rw [if_neg hx, cacheGet_cons, if_neg hx]
      exact ih

theorem cacheGet_map_other (d d2 : String) (e : CacheEntry)
    (h : (d2 == d) = false) :
    ∀ xs : List (String × CacheEntry),
      cacheGet (xs.map fun y => if (y.1 == d2) = true then (d2, e) else y) d =
        cacheGet xs d := by
  intro xs
  induction xs with
  | nil => rfl
  | cons y ys ih =>
    rw [List.map_cons]
    by_cases hy : (y.1 == d2) = true
    · rw [if_pos hy, cacheGet_cons, cacheGet_cons]
      have hyd : (y.1 == d) = false := by
        have hy2 : y.1 = d2 := by simpa using hy
        rw [hy2]
        exact h
      rw [if_neg (by simp [h]), if_neg (by simp [hyd])]
      exact ih
    · rw [if_neg hy, cacheGet_cons, cacheGet_cons]
      by_cases hyd : (y.1 == d) = true
      · rw [if_pos hyd, if_pos hyd]
      · rw [if_neg hyd, if_neg hyd]
        exact ih

theorem cacheGet_set_ne (d d2 : String) (e : CacheEntry) (h : d ≠ d2) :
    ∀ c, cacheGet (cacheSet c d2 e) d = cacheGet c d := by
  have hne : (d2 == d) = false := by
    rcases hb : (d2 == d) with _ | _
    · rfl
    · exact absurd (by simpa using hb : d2 = d) (fun hk => h hk.symm)
  intro c
  induction c with
  | nil =>
    have hs : cacheSet [] d2 e = [(d2, e)] := by simp [cacheSet]
    rw [hs, cacheGet_cons, if_neg (by simp [hne])]
  | cons x xs ih =>
    rw [cacheSet_cons]
    by_cases hx : (x.1 == d2) = true
    · rw [if_pos hx, cacheGet_cons, cacheGet_cons]
      have hxd : (x.1 == d) = false := by
        have hx2 : x.1 = d2 := by simpa using hx
        rw [hx2]
        exact hne
      rw [if_neg (by simp [hne]), if_neg (by simp [hxd])]
      exact cacheGet_map_other d d2 e hne xs
    · rw [if_neg hx, cacheGet_cons, cacheGet_cons]
      by_cases hxd : (x.1 == d) = true
      · rw [if_pos hxd, if_pos hxd]
      · rw [if_neg hxd, if_neg hxd]
        exact ih

/-- Calls for another domain leave a domain's cache entry untouched. -/
theorem resolve_preserves_other (st : DomainState) (now : Nat) (d2 : String)
    (db : RpcReply) (d : String) (h : d ≠ d2) :
    cacheGet (resolveTenantFromDomain st now d2 db).state.cache d =
      cacheGet st.cache d := by
  unfold resolveTenantFromDomain resolveViaDb
  rcases db with ⟨data, error⟩
  rcases hc : cacheGet st.cache d2 with _ | e
  · cases error
    · cases data with
      | none => rfl
      | some t =>
        by_cases ht : (t == "") = true
        · simp [ht]
        · simp only [Bool.not_eq_true] at ht
          simp [ht, cacheGet_set_ne d d2 ⟨t, now⟩ h]
    · rfl
  · by_cases hf : cacheFresh e now = true
    · simp [hf]
    · simp only [Bool.not_eq_true] at hf
      simp only [hf, Bool.false_eq_true, if_false]
      cases error
      · cases data with
        | none => rfl
        | some t =>
          by_cases ht : (t == "") = true
          · simp [ht]
          · simp only [Bool.not_eq_true] at ht
            simp [ht, cacheGet_set_ne d d2 ⟨t, now⟩ h]
      · rfl

def runCalls (st : DomainState) (calls : List (Nat × String × RpcReply)) : DomainState :=
  calls.foldl (fun s c => (resolveTenantFromDomain s c.1 c.2.1 c.2.2).state) st

/-- A fresh cache hit answers from the cache: same id, unchanged state, no
database lookup. -/
theorem resolve_fresh_hit (st : DomainState) (now : Nat) (d : String)
    (db : RpcReply) (e : CacheEntry) (hc : cacheGet st.cache d = some e)
    (hf : cacheFresh e now = true) :
    resolveTenantFromDomain st now d db = ⟨some e.tenantId, st, false⟩ := by
  unfold resolveTenantFromDomain
  rw [hc]
  simp [hf]

/-- C2: a successful non-null resolution is written to the cache stamped with
the current time; every later call for the same domain made while the entry is
younger than CACHE_TIMEOUT (including across interleaved calls for other
domains) returns the same tenant id from the cache without a database lookup;
null or failed resolutions are never written, for resolveTenantFromDomain and
for getCurrentDomainConfig alike. -/
theorem domain_cache_five_minute_window :
    (∀ st now d t,
      (∀ e, cacheGet st.cache d = some e → cacheFresh e now = false) → t ≠ "" →
      (resolveTenantFromDomain st now d ⟨some t, none⟩).result = some t ∧
      cacheGet (resolveTenantFromDomain st now d ⟨some t, none⟩).state.cache d =
        some ⟨t, now⟩) ∧
    (∀ st now d db e, cacheGet st.cache d = some e → cacheFresh e now = true →
      resolveTenantFromDomain st now d db = ⟨some e.tenantId, st, false⟩) ∧
    (∀ st now d db, db.error ≠ none ∨ db.data = none ∨ db.data = some "" →
      (resolveTenantFromDomain st now d db).state.cache = st.cache) ∧
    (∀ st d t ts calls,
      cacheGet st.cache d = some ⟨t, ts⟩ →
      (∀ c ∈ calls, c.2.1 = d → cacheFresh ⟨t, ts⟩ c.1 = true) →
      cacheGet (runCalls st calls).cache d = some ⟨t, ts⟩ ∧
      (∀ now2 db, cacheFresh ⟨t, ts⟩ now2 = true →
        resolveTenantFromDomain (runCalls st calls) now2 d db =
          ⟨some t, runCalls st calls, false⟩)) ∧
    (∀ st now d aw naw db e, cacheGet st.cache d = some e → cacheFresh e now = true →
      getCurrentDomainConfig st now d aw naw db =
        ⟨cachedConfig d e.tenantId, st, false⟩) ∧
    (∀ st d now db info, db.error ≠ none ∨ db.data = none ∨ db.data = some "" →
      (gcdcLookup st d now db info).state.cache = st.cache) := by
  refine ⟨?_, ?_, ?_, ?_, ?_, ?_⟩
  · intro st now d t hstale ht
    have hbe : (t == "") = false := by
      rcases hb : (t == "") with _ | _
      · rfl
      · exact absurd (by simpa using hb) ht
    have hvia : resolveTenantFromDomain st now d ⟨some t, none⟩ =
        resolveViaDb st now d ⟨some t, none⟩ := by
      unfold resolveTenantFromDomain
      rcases hc : cacheGet st.cache d with _ | e
      · rfl
      · simp [hstale e hc]
    rw [hvia]
    unfold resolveViaDb
    simp [hbe, cacheGet_set_self]
  · exact fun st now d db e hc hf => resolve_fresh_hit st now d db e hc hf
  · intro st now d db h
    unfold resolveTenantFromDomain resolveViaDb
    rcases db with ⟨data, error⟩
    rcases hc : cacheGet st.cache d with _ | e
    · cases error
      · rcases h with h | h | h
        · exact absurd rfl h
        · simp only at h
          simp [h]
        · simp only at h
          simp [h]
      · rfl
    · by_cases hf : cacheFresh e now = true
      · simp [hf]
      · simp only [Bool.not_eq_true] at hf
        simp only [hf, Bool.false_eq_true, if_false]
        cases error
        · rcases h with h | h | h
          · exact absurd rfl h
          · simp only at h
            simp [h]
          · simp only at h
            simp [h]
        · rfl
  · intro st d t ts calls
    induction calls generalizing st with
    | nil =>
      intro hc _
      exact ⟨hc, fun now2 db hf => resolve_fresh_hit _ now2 d db ⟨t, ts⟩ hc hf⟩
    | cons c cs ih =>
      intro hc hfresh
      have hstep : cacheGet (resolveTenantFromDomain st c.1 c.2.1 c.2.2).state.cache d =
          some ⟨t, ts⟩ := by
        by_cases hd : c.2.1 = d
        · rw [hd]
          rw [resolve_fresh_hit st c.1 d c.2.2 ⟨t, ts⟩ hc
            (hfresh c (List.mem_cons_self c cs) hd)]
          exact hc
        · rw [resolve_preserves_other st c.1 c.2.1 c.2.2 d (fun he => hd he.symm)]
          exact hc
      have hrun : runCalls st (c :: cs) =
          runCalls (resolveTenantFromDomain st c.1 c.2.1 c.2.2).state cs := by
        simp [runCalls]
      rw [hrun]
      exact ih (resolveTenantFromDomain st c.1 c.2.1 c.2.2).state hstep
        (fun x hx hxd => hfresh x (List.mem_cons_of_mem c hx) hxd)
  · intro st now d aw naw db e hc hf
    unfold getCurrentDomainConfig
    rw [hc]
    simp [hf]
  · intro st d now db info h
    unfold gcdcLookup
    rcases db with ⟨data, error⟩
    cases error
    · rcases h with h | h | h
      · exact absurd rfl h
      · simp only at h
        simp [h]
      · simp only at h
        simp [h]
    · rfl

theorem domain_cache_five_minute_window_witness :
    (resolveTenantFromDomain ⟨[], []⟩ 1000 "a.example.com" ⟨some "t1", none⟩).result =
      some "t1" ∧
    cacheGet (resolveTenantFromDomain ⟨[], []⟩ 1000 "a.example.com"
      ⟨some "t1", none⟩).state.cache "a.example.com" = some ⟨"t1", 1000⟩ ∧
    resolveTenantFromDomain ⟨[("a.example.com", ⟨"t1", 1000⟩)], []⟩ 300999
      "a.example.com" ⟨none, some "boom"⟩ =
      ⟨some "t1", ⟨[("a.example.com", ⟨"t1", 1000⟩)], []⟩, false⟩ :=
  ⟨(domain_cache_five_minute_window.1 ⟨[], []⟩ 1000 "a.example.com" "t1"
      (by intro e he; simp [cacheGet] at he) (by decide)).1,
   (domain_cache_five_minute_window.1 ⟨[], []⟩ 1000 "a.example.com" "t1"
      (by intro e he; simp [cacheGet] at he) (by decide)).2,
   domain_cache_five_minute_window.2.1 ⟨[("a.example.com", ⟨"t1", 1000⟩)], []⟩
      300999 "a.example.com" ⟨none, some "boom"⟩ ⟨"t1", 1000⟩ (by rfl) (by decide)⟩

/-- Every path through the database branch of getCurrentDomainConfig performs
a lookup. -/
theorem gcdcLookup_didLookup (st : DomainState) (d : String) (now : Nat)
    (db : RpcReply) (info : DomainConfig) :
    (gcdcLookup st d now db info).didLookup = true := by
  unfold gcdcLookup
  rcases db with ⟨data, error⟩
  cases error
  · rfl
  · rfl

/-- C3 counterexample: with the domain already in the resolving set and no
fresh cache entry appearing while the overlapping call waits (the first
resolution failed or has not finished), the second call does issue a database
lookup of its own, contradicting the claim that it never does. -/
theorem overlapping_lookup_counterexample :
    ("shop.example.com" ∈ (DomainState.mk [] ["shop.example.com"]).resolving) ∧
    (getCurrentDomainConfig ⟨[], ["shop.example.com"]⟩ 0 "shop.example.com"
      ⟨[], []⟩ 400 ⟨some "t9", none⟩).didLookup = true := by
  exact ⟨by decide, by rfl⟩

/-- C3 (amended): an overlapping call for a domain in the resolving set issues
no lookup of its own only when a fresh cache entry exists once its wait ends —
then it returns that cached result; when no fresh entry appears (the first
resolution failed, resolved no tenant, or did not finish within the wait), the
call falls through and performs its own database lookup. -/
theorem overlapping_lookup_dedup :
    (∀ st now d aw naw db e,
      cacheGet st.cache d = none →
      dmIsDevDomain d = false → dmIsMainDomain d = false →
      st.resolving.contains d = true →
      cacheGet aw.cache d = some e → cacheFresh e naw = true →
      getCurrentDomainConfig st now d aw naw db =
        ⟨cachedConfig d e.tenantId, aw, false⟩) ∧
    (∀ st now d aw naw db,
      cacheGet st.cache d = none →
      dmIsDevDomain d = false → dmIsMainDomain d = false →
      st.resolving.contains d = true →
      cacheGet aw.cache d = none →
      (getCurrentDomainConfig st now d aw naw db).didLookup = true) := by
  constructor
  · intro st now d aw naw db e h0 hdev hmain hres hcw hf
    unfold getCurrentDomainConfig
    rw [h0]
    unfold gcdcAfterCacheCheck
    rw [hdev, hmain]
    simp only [Bool.or_self, Bool.false_eq_true, if_false]
    rw [hres]
    simp only [if_true]
    rw [hcw]
    simp [hf]
  · intro st now d aw naw db h0 hdev hmain hres hcw
    unfold getCurrentDomainConfig
    rw [h0]
    unfold gcdcAfterCacheCheck
    rw [hdev, hmain]
    simp only [Bool.or_self, Bool.false_eq_true, if_false]
    rw [hres]
    simp only [if_true]
    rw [hcw]
    exact gcdcLookup_didLookup aw d naw db (parseDomain d)

theorem overlapping_lookup_dedup_witness :
    getCurrentDomainConfig ⟨[], ["b.example.com"]⟩ 50 "b.example.com"
      ⟨[("b.example.com", ⟨"t2", 100⟩)], []⟩ 200 ⟨none, some "boom"⟩ =
      ⟨cachedConfig "b.example.com" "t2",
        ⟨[("b.example.com", ⟨"t2", 100⟩)], []⟩, false⟩ :=
  overlapping_lookup_dedup.1 ⟨[], ["b.example.com"]⟩ 50 "b.example.com"
    ⟨[("b.example.com", ⟨"t2", 100⟩)], []⟩ 200 ⟨none, some "boom"⟩ ⟨"t2", 100⟩
    (by rfl) (by rfl) (by rfl) (by rfl) (by rfl) (by decide)

theorem maybeSingle_ok_some (rows : List TenantRow) (t : TenantRow)
    (h : maybeSingle rows = .ok (some t)) : t ∈ rows := by
  match rows, h with
  | [t2], h =>
    simp only [maybeSingle, QueryReply.ok.injEq, Option.some.injEq] at h
    simp [h]

/-- The tenants table used by the C4 counterexample: a single tenant whose
status is suspended. -/
def c4Tenants : List TenantRow :=
  [⟨"t1", "Shop", "shop", "suspended", "p1", "u1"⟩]

/-- C4 counterexample: when the direct status-filtered lookup finds nothing,
the primary getTenantFromSubdomain falls back to the domain manager, whose
get_tenant_by_domain database function applies no status filter — so the
suspended tenant t1 is resolved for shop.vibenet.online. -/
theorem suspended_tenant_resolved_counterexample :
    getTenantFromSubdomain "shop.vibenet.online" c4Tenants none
      ((getCurrentDomainConfig ⟨[], []⟩ 0 "shop.vibenet.online" ⟨[], []⟩ 0
        ⟨get_tenant_by_domain c4Tenants "shop.vibenet.online", none⟩).config.tenantId)
      = some "t1" ∧
    (∀ t ∈ c4Tenants, t.status = "suspended") := by
  exact ⟨by rfl, by decide⟩

/-- C4 (amended): the direct lookup of the primary implementation yields a
tenant id only for a row with the matching subdomain and status active or
trial — otherwise any id it returns came from the domain-manager fallback,
which is not status-filtered; the duplicate implementation yields ids only for
rows with status active; both return null on a database error instead of
throwing. -/
theorem getTenantFromSubdomain_status_bounds :
    (∀ host tenants dbErr fb tid,
      getTenantFromSubdomain host tenants dbErr fb = some tid →
      (∃ t, t ∈ tenants ∧ t.id = tid ∧ t.subdomain = subdomainLabel host ∧
        (t.status = "active" ∨ t.status = "trial")) ∨ fb = some tid) ∧
    (∀ host tenants dbErr tid,
      getTenantFromSubdomainV2 host tenants dbErr = some tid →
      ∃ t, t ∈ tenants ∧ t.id = tid ∧ t.subdomain = subdomainLabel host ∧
        t.status = "active") ∧
    (∀ host tenants fb e, getTenantFromSubdomain host tenants (some e) fb = none) ∧
    (∀ host tenants e, getTenantFromSubdomainV2 host tenants (some e) = none) := by
  refine ⟨?_, ?_, ?_, ?_⟩
  · intro host tenants dbErr fb tid h
    unfold getTenantFromSubdomain at h
    cases hs : nsIsSubdomain host with
    | false => rw [hs] at h; simp at h
    | true =>
      rw [hs] at h
      simp only [Bool.not_true, Bool.false_eq_true, if_false] at h
      cases dbErr with
      | some e => simp at h
      | none =>
        rcases hms : maybeSingle (tenants.filter fun t =>
            t.subdomain == subdomainLabel host &&
            ["active", "trial"].contains t.status) with d | m
        · rw [hms] at h
          cases d with
          | some t =>
            left
            have hmem := maybeSingle_ok_some _ t hms
            rw [List.mem_filter] at hmem
            simp only [Option.some.injEq] at h
            refine ⟨t, hmem.1, h, ?_, ?_⟩
            · have hp := hmem.2
              rw [Bool.and_eq_true] at hp
              simpa using hp.1
            · have hp := hmem.2
              rw [Bool.and_eq_true] at hp
              have h2 := hp.2
              simpa using h2
          | none =>
            right
            cases fb with
            | none => simp at h
            | some t2 =>
              by_cases ht : (t2 == "") = true
              · simp [ht] at h
              · simp only [Bool.not_eq_true] at ht
                simp only [ht, Bool.false_eq_true, if_false] at h
                exact h
        · rw [hms] at h
          simp at h
  · intro host tenants dbErr tid h
    unfold getTenantFromSubdomainV2 at h
    cases hs : nsIsSubdomain host with
    | false => rw [hs] at h; simp at h
    | true =>
      rw [hs] at h
      simp only [Bool.not_true, Bool.false_eq_true, if_false] at h
      cases dbErr with
      | some e => simp at h
      | none =>
        rcases hms : maybeSingle (tenants.filter fun t =>
            t.subdomain == subdomainLabel host && t.status == "active") with d | m
        · rw [hms] at h
          cases d with
          | some t =>
            have hmem := maybeSingle_ok_some _ t hms
            rw [List.mem_filter] at hmem
            by_cases ht : (t.id == "") = true
            · simp [ht] at h
            · simp only [Bool.not_eq_true] at ht
              simp only [ht, Bool.false_eq_true, if_false, Option.some.injEq] at h
              refine ⟨t, hmem.1, h, ?_, ?_⟩
              · have hp := hmem.2
                rw [Bool.and_eq_true] at hp
                simpa using hp.1
              · have hp := hmem.2
                rw [Bool.and_eq_true] at hp
                simpa using hp.2
          | none => simp at h
        · rw [hms] at h
          simp at h
  · intro host tenants fb e
    cases hs : nsIsSubdomain host <;> simp [getTenantFromSubdomain, hs]
  · intro host tenants e
    cases hs : nsIsSubdomain host <;> simp [getTenantFromSubdomainV2, hs]

theorem getTenantFromSubdomain_status_bounds_witness :
    (∃ t, t ∈ c4Tenants ∧ t.id = "t1" ∧
      t.subdomain = subdomainLabel "shop.vibenet.online" ∧
      (t.status = "active" ∨ t.status = "trial")) ∨
      (some "t1" : Option String) = some "t1" :=
  getTenantFromSubdomain_status_bounds.1 "shop.vibenet.online" c4Tenants none
    (some "t1") "t1" (by rfl)

theorem insertDesc_ne_nil (p : BillingPlan) (l : List BillingPlan) :
    insertDesc p l ≠ [] := by
  cases l with
  | nil => simp [insertDesc]
  | cons q qs =>
    unfold insertDesc
    by_cases h : q.price < p.price <;> simp [h]

theorem sortByPriceDesc_eq_nil_iff (l : List BillingPlan) :
    sortByPriceDesc l = [] ↔ l = [] := by
  cases l with
  | nil => simp [sortByPriceDesc]
  | cons p ps =>
    simp only [sortByPriceDesc]
    exact ⟨fun h => absurd h (insertDesc_ne_nil p (sortByPriceDesc ps)),
      fun h => absurd h (by simp)⟩

theorem mem_insertDesc (x p : BillingPlan) (l : List BillingPlan) :
    x ∈ insertDesc p l ↔ x = p ∨ x ∈ l := by
  induction l with
  | nil => simp [insertDesc]
  | cons q qs ih =>
    unfold insertDesc
    by_cases h : q.price < p.price
    · simp [h]
    · simp only [h, if_false, List.mem_cons, ih]
      tauto

theorem mem_sortByPriceDesc (x : BillingPlan) (l : List BillingPlan) :
    x ∈ sortByPriceDesc l ↔ x ∈ l := by
  induction l with
  | nil => simp [sortByPriceDesc]
  | cons p ps ih => simp [sortByPriceDesc, mem_insertDesc, ih]

theorem sortByPriceDesc_head_max (l : List BillingPlan) :
    ∀ p rest, sortByPriceDesc l = p :: rest → ∀ q ∈ l, q.price ≤ p.price := by
  induction l with
  | nil => intro p rest h; simp [sortByPriceDesc] at h
  | cons a as ih =>
    intro p rest hs q hq
    simp only [sortByPriceDesc] at hs
    cases h2 : sortByPriceDesc as with
    | nil =>
      have has : as = [] := (sortByPriceDesc_eq_nil_iff as).mp h2
      rw [h2] at hs
      simp only [insertDesc, List.cons.injEq] at hs
      rcases List.mem_cons.mp hq with rfl | hq2
      · simp [hs.1]
      · rw [has] at hq2
        simp at hq2
    | cons b bs =>
      have hmax := ih b bs h2
      rw [h2] at hs
      unfold insertDesc at hs
      by_cases hcmp : b.price < a.price
      · rw [if_pos hcmp] at hs
        have hpa : p = a := ((List.cons.injEq _ _ _ _).mp hs).1.symm
        subst hpa
        rcases List.mem_cons.mp hq with rfl | hq2
        · exact le_refl _
        · exact le_of_lt (lt_of_le_of_lt (hmax q hq2) hcmp)
      · rw [if_neg hcmp] at hs
        have hpb : p = b := ((List.cons.injEq _ _ _ _).mp hs).1.symm
        subst hpb
        rcases List.mem_cons.mp hq with rfl | hq2
        · exact le_of_not_lt hcmp
        · exact hmax q hq2

theorem topActivePlans_cons (plans : List BillingPlan) (p : BillingPlan)
    (rest : List BillingPlan) (h : topActivePlans plans = p :: rest) :
    p ∈ plans.filter (fun q => q.is_active) ∧
    ∀ q ∈ plans.filter (fun q => q.is_active), q.price ≤ p.price := by
  unfold topActivePlans at h
  cases hs : sortByPriceDesc (plans.filter fun q => q.is_active) with
  | nil => rw [hs] at h; simp at h
  | cons c cs =>
    rw [hs] at h
    simp only [List.take_succ_cons, List.take_zero, List.cons.injEq] at h
    rcases h with ⟨rfl, _⟩
    exact ⟨(mem_sortByPriceDesc c _).mp (by simp [hs]),
      sortByPriceDesc_head_max _ c cs hs⟩

theorem topActivePlans_nil_iff (plans : List BillingPlan) :
    topActivePlans plans = [] ↔ plans.filter (fun q => q.is_active) = [] := by
  unfold topActivePlans
  cases hs : sortByPriceDesc (plans.filter fun q => q.is_active) with
  | nil => simpa using (sortByPriceDesc_eq_nil_iff _).mp hs
  | cons c cs =>
    simp only [List.take_succ_cons, List.take_zero]
    constructor
    · intro h; simp at h
    · intro h
      rw [h] at hs
      simp [sortByPriceDesc] at hs

/-- C5: on success create-tenant-trial inserts a tenant with status trial,
subdomain sanitizeSubdomain(businessName) and the id of a highest-priced
active billing plan, and sets the requesting user's profile to role admin with
the new tenant id; when no active plan exists or the tenant insert or profile
update fails it answers HTTP 500 with code TENANT_CREATION_FAILED. -/
theorem create_tenant_trial_spec :
    ∀ (db : TrialDb) (out : TrialDbOutcome) (req : TrialRequest) (ts : String),
    ((out.plansError = none ∧ out.tenantInsertError = none ∧
      out.profileUpdateError = none ∧
      db.billing_plans.filter (fun p => p.is_active) ≠ []) →
      ∃ t plan,
        (handleTenantRequest db out req ts).insertedTenant = some t ∧
        t.status = "trial" ∧
        t.subdomain = sanitizeSubdomain req.businessName ∧
        t.billing_plan_id = plan.id ∧
        plan ∈ db.billing_plans.filter (fun p => p.is_active) ∧
        (∀ q ∈ db.billing_plans.filter (fun p => p.is_active), q.price ≤ plan.price) ∧
        (∀ pr ∈ (handleTenantRequest db out req ts).profiles,
          pr.user_id = req.userId → pr.role = "admin" ∧ pr.tenant_id = some t.id)) ∧
    ((out.plansError ≠ none ∨ db.billing_plans.filter (fun p => p.is_active) = [] ∨
      out.tenantInsertError ≠ none ∨ out.profileUpdateError ≠ none) →
      (handleTenantRequest db out req ts).response.status = 500 ∧
      jsonGet (handleTenantRequest db out req ts).response.body "code" =
        some (Json.jstr "TENANT_CREATION_FAILED")) := by
  intro db out req ts
  constructor
  · rintro ⟨hpe, hte, hpu, hne⟩
    cases htop : topActivePlans db.billing_plans with
    | nil => exact absurd ((topActivePlans_nil_iff db.billing_plans).mp htop) hne
    | cons plan rest =>
      have hspec := topActivePlans_cons db.billing_plans plan rest htop
      refine ⟨⟨out.newTenantId, req.businessName, sanitizeSubdomain req.businessName,
        "trial", plan.id, req.userId⟩, plan, ?_, rfl, rfl, rfl, hspec.1, hspec.2, ?_⟩
      · simp [handleTenantRequest, hpe, htop, hte, hpu]
      · intro pr hpr hpid
        have hprof : (handleTenantRequest db out req ts).profiles =
            db.profiles.map (fun p =>
              if p.user_id == req.userId then
                { p with
                  tenant_id := some out.newTenantId
                  role := "admin"
                  full_name := some req.ownerName
                  auth_method := some (if req.isGoogleUser then "google" else "email") }
              else p) := by
          simp [handleTenantRequest, hpe, htop, hte, hpu]
        rw [hprof] at hpr
        obtain ⟨p0, hp0, rfl⟩ := List.mem_map.mp hpr
        by_cases hid : (p0.user_id == req.userId) = true
        · simp [hid]
        · simp only [Bool.not_eq_true] at hid
          rw [if_neg (by simp [hid])] at hpid ⊢
          rw [← hpid] at hid
          simp at hid
  · intro h
    rcases hp : out.plansError with _ | e
    · cases htop : topActivePlans db.billing_plans with
      | nil =>
        constructor
        · simp [handleTenantRequest, hp, htop, createErrorResponse]
        · simp only [handleTenantRequest, hp, Option.isSome_none, Bool.false_eq_true,
            if_false, htop]
          rfl
      | cons plan rest =>
        rcases hti : out.tenantInsertError with _ | e2
        · rcases hpu : out.profileUpdateError with _ | e3
          · rcases h with h | h | h | h
            · exact absurd hp h
            · rw [← topActivePlans_nil_iff db.billing_plans] at h
              rw [h] at htop
              simp at htop
            · exact absurd hti h
            · exact absurd hpu h
          · constructor
            · simp [handleTenantRequest, hp, htop, hti, hpu, createErrorResponse]
            · simp only [handleTenantRequest, hp, Option.isSome_none, Bool.false_eq_true,
                if_false, htop, hti, hpu]
              rfl
        · constructor
          · simp [handleTenantRequest, hp, htop, hti, createErrorResponse]
          · simp only [handleTenantRequest, hp, Option.isSome_none, Bool.false_eq_true,
              if_false, htop, hti]
            rfl
    · constructor
      · simp [handleTenantRequest, hp, createErrorResponse]
      · simp only [handleTenantRequest, hp, Option.isSome_some, if_true]
        rfl

def c5Db : TrialDb :=
  ⟨[⟨"p1", "Basic", 10, true⟩, ⟨"p2", "Pro", 50, true⟩, ⟨"p3", "Old", 99, false⟩],
   [⟨"u1", none, "user", none, none⟩]⟩

def c5Out : TrialDbOutcome := ⟨none, none, "tid1", none, none⟩

def c5Req : TrialRequest := ⟨"u1", "My Shop!", "Owner", false⟩

theorem create_tenant_trial_spec_witness :
    ∃ t plan,
      (handleTenantRequest c5Db c5Out c5Req "ts").insertedTenant = some t ∧
      t.status = "trial" ∧
      t.subdomain = sanitizeSubdomain c5Req.businessName ∧
      t.billing_plan_id = plan.id ∧
      plan ∈ c5Db.billing_plans.filter (fun p => p.is_active) ∧
      (∀ q ∈ c5Db.billing_plans.filter (fun p => p.is_active), q.price ≤ plan.price) ∧
      (∀ pr ∈ (handleTenantRequest c5Db c5Out c5Req "ts").profiles,
        pr.user_id = c5Req.userId → pr.role = "admin" ∧ pr.tenant_id = some t.id) :=
  (create_tenant_trial_spec c5Db c5Out c5Req "ts").1 ⟨rfl, rfl, rfl, by decide⟩

/-! Lemmas about the sanitisation pipeline. -/

theorem mem_collapseRunsAux (p : Char → Bool) (r : Char) :
    ∀ (l : List Char) (b : Bool) (c : Char), c ∈ collapseRunsAux p r b l →
      c = r ∨ (p c = false ∧ c ∈ l) := by
  intro l
  induction l with
  | nil => intro b c h; simp [collapseRunsAux] at h
  | cons x xs ih =>
    intro b c h
    unfold collapseRunsAux at h
    by_cases hx : p x = true
    · rw [if_pos hx] at h
      cases b with
      | true =>
        simp only [if_true] at h
        rcases ih true c h with h1 | ⟨h2, h3⟩
        · exact Or.inl h1
        · exact Or.inr ⟨h2, List.mem_cons_of_mem x h3⟩
      | false =>
        simp only [Bool.false_eq_true, if_false] at h
        rcases List.mem_cons.mp h with rfl | h2
        · exact Or.inl rfl
        · rcases ih true c h2 with h1 | ⟨h3, h4⟩
          · exact Or.inl h1
          · exact Or.inr ⟨h3, List.mem_cons_of_mem x h4⟩
    · rw [if_neg hx] at h
      rcases List.mem_cons.mp h with rfl | h2
      · exact Or.inr ⟨eq_false_of_ne_true hx, List.mem_cons_self _ _⟩
      · rcases ih false c h2 with h1 | ⟨h3, h4⟩
        · exact Or.inl h1
        · exact Or.inr ⟨h3, List.mem_cons_of_mem x h4⟩

theorem collapseHyphens_ok :
    ∀ (l : List Char) (b : Bool),
      noDoubleHyphen (collapseRunsAux (fun c => c == '-') '-' b l) = true ∧
      (b = true → headIsHyphen (collapseRunsAux (fun c => c == '-') '-' b l) = false) := by
  intro l
  induction l with
  | nil => intro b; exact ⟨rfl, fun _ => rfl⟩
  | cons x xs ih =>
    intro b
    by_cases hx : (x == '-') = true
    · cases b with
      | true =>
        have heq : collapseRunsAux (fun c => c == '-') '-' true (x :: xs) =
            collapseRunsAux (fun c => c == '-') '-' true xs := by
          simp [collapseRunsAux, hx]
        rw [heq]
        exact ⟨(ih true).1, fun _ => (ih true).2 rfl⟩
      | false =>
        have heq : collapseRunsAux (fun c => c == '-') '-' false (x :: xs) =
            '-' :: collapseRunsAux (fun c => c == '-') '-' true xs := by
          simp [collapseRunsAux, hx]
        rw [heq]
        refine ⟨?_, fun hb => absurd hb (by decide)⟩
        cases haux : collapseRunsAux (fun c => c == '-') '-' true xs with
        | nil => rfl
        | cons y ys =>
          have hhead := (ih true).2 rfl
          rw [haux] at hhead
          have hy : (y == '-') = false := by simpa [headIsHyphen] using hhead
          have h1 := (ih true).1
          rw [haux] at h1
          simp [noDoubleHyphen, hy, h1]
    · have heq : collapseRunsAux (fun c => c == '-') '-' b (x :: xs) =
          x :: collapseRunsAux (fun c => c == '-') '-' false xs := by
        simp [collapseRunsAux, hx]
      rw [heq]
      constructor
      · cases haux : collapseRunsAux (fun c => c == '-') '-' false xs with
        | nil => rfl
        | cons y ys =>
          have h1 := (ih false).1
          rw [haux] at h1
          simp [noDoubleHyphen, hx, h1]
      · intro _
        simpa [headIsHyphen] using hx

theorem noDoubleHyphen_tail (x : Char) (l : List Char)
    (h : noDoubleHyphen (x :: l) = true) : noDoubleHyphen l = true := by
  cases l with
  | nil => rfl
  | cons y ys =>
    have h3 := h
    simp only [noDoubleHyphen, Bool.and_eq_true] at h3
    exact h3.2

theorem noDoubleHyphen_take :
    ∀ (l : List Char) (n : Nat), noDoubleHyphen l = true →
      noDoubleHyphen (l.take n) = true := by
  intro l
  induction l with
  | nil => intro n h; simpa [List.take_nil] using h
  | cons x xs ih =>
    intro n h
    cases n with
    | zero => rfl
    | succ m =>
      rw [List.take_succ_cons]
      cases xs with
      | nil => simp [List.take_nil, noDoubleHyphen]
      | cons y ys =>
        cases m with
        | zero => simp [noDoubleHyphen]
        | succ k =>
          have hcons := h
          simp only [noDoubleHyphen, Bool.and_eq_true] at hcons
          have h2 := ih (k + 1) hcons.2
          rw [List.take_succ_cons] at h2
          show noDoubleHyphen (x :: y :: List.take k ys) = true
          simp only [noDoubleHyphen, Bool.and_eq_true]
          exact ⟨hcons.1, h2⟩

theorem noDoubleHyphen_dropLast :
    ∀ (l : List Char), noDoubleHyphen l = true →
      noDoubleHyphen l.dropLast = true := by
  intro l
  induction l with
  | nil => intro h; exact h
  | cons x xs ih =>
    intro h
    cases xs with
    | nil => rfl
    | cons y ys =>
      cases ys with
      | nil => rfl
      | cons z zs =>
        have hcons := h
        simp only [noDoubleHyphen, Bool.and_eq_true] at hcons
        have h2 : noDoubleHyphen ((y :: z :: zs).dropLast) = true :=
          ih (noDoubleHyphen_tail x _ h)
        show noDoubleHyphen (x :: (y :: z :: zs).dropLast) = true
        have hdl : (y :: z :: zs).dropLast = y :: (z :: zs).dropLast := rfl
        rw [hdl] at h2 ⊢
        simp only [noDoubleHyphen, Bool.and_eq_true]
        exact ⟨hcons.1, h2⟩

theorem noDoubleHyphen_stripLead (l : List Char) (h : noDoubleHyphen l = true) :
    noDoubleHyphen (stripLeadHyphen l) = true := by
  cases l with
  | nil => exact h
  | cons c cs =>
    by_cases hc : (c == '-') = true
    · rw [stripLeadHyphen, if_pos hc]
      exact noDoubleHyphen_tail c cs h
    · rw [stripLeadHyphen, if_neg hc]
      exact h

theorem headIsHyphen_stripLead (l : List Char) (h : noDoubleHyphen l = true) :
    headIsHyphen (stripLeadHyphen l) = false := by
  cases l with
  | nil => rfl
  | cons c cs =>
    by_cases hc : (c == '-') = true
    · rw [stripLeadHyphen, if_pos hc]
      cases cs with
      | nil => rfl
      | cons y ys =>
        have hcons := h
        simp only [noDoubleHyphen, Bool.and_eq_true] at hcons
        have h1 := hcons.1
        rw [Bool.not_eq_true'] at h1
        rw [Bool.and_eq_false_iff] at h1
        rcases h1 with h1 | h1
        · exact absurd hc (by simp [h1])
        · simpa [headIsHyphen] using h1
    · rw [stripLeadHyphen, if_neg hc]
      simpa [headIsHyphen] using hc

theorem headIsHyphen_dropLast (l : List Char) (h : headIsHyphen l = false) :
    headIsHyphen l.dropLast = false := by
  cases l with
  | nil => rfl
  | cons x xs =>
    cases xs with
    | nil => rfl
    | cons y ys =>
      have hdl : (x :: y :: ys).dropLast = x :: (y :: ys).dropLast := rfl
      rw [hdl]
      simpa [headIsHyphen] using h

theorem headIsHyphen_take (l : List Char) (n : Nat) (hn : n ≠ 0)
    (h : headIsHyphen l = false) : headIsHyphen (l.take n) = false := by
  cases l with
  | nil => simp [List.take_nil, headIsHyphen]
  | cons x xs =>
    cases n with
    | zero => exact absurd rfl hn
    | succ m =>
      rw [List.take_succ_cons]
      simpa [headIsHyphen] using h

theorem stripLeadHyphen_subset (l : List Char) : stripLeadHyphen l ⊆ l := by
  cases l with
  | nil => exact fun _ h => h
  | cons c cs =>
    by_cases hc : (c == '-') = true
    · rw [stripLeadHyphen, if_pos hc]
      exact fun _ h => List.mem_cons_of_mem c h
    · rw [stripLeadHyphen, if_neg hc]
      exact fun _ h => h

theorem stripTrailHyphen_subset (l : List Char) : stripTrailHyphen l ⊆ l := by
  unfold stripTrailHyphen
  by_cases h : l.getLast? = some '-'
  · rw [if_pos h]
    exact (List.dropLast_sublist l).subset
  · rw [if_neg h]
    exact fun _ h2 => h2

theorem kept_not_space_subdomain (c : Char) (h1 : keptChar c = true)
    (h2 : isJsSpace c = false) : subdomainChar c = true := by
  unfold keptChar at h1
  unfold subdomainChar
  rw [h2] at h1
  simpa using h1

theorem sanitizeL_shape (l : List Char) :
    (sanitizeSubdomainL l).length ≤ 30 ∧
    (sanitizeSubdomainL l).all subdomainChar = true ∧
    noDoubleHyphen (sanitizeSubdomainL l) = true ∧
    headIsHyphen (sanitizeSubdomainL l) = false := by
  have hrw : sanitizeSubdomainL l =
      (stripTrailHyphen (stripLeadHyphen (collapseRuns (fun c => c == '-') '-'
        (collapseRuns isJsSpace '-' ((l.map Char.toLower).filter keptChar))))).take 30 :=
    rfl
  rw [hrw]
  have haux2 : collapseRuns isJsSpace '-' ((l.map Char.toLower).filter keptChar) =
      collapseRunsAux isJsSpace '-' false ((l.map Char.toLower).filter keptChar) := rfl
  have haux3 : collapseRuns (fun c => c == '-') '-'
      (collapseRuns isJsSpace '-' ((l.map Char.toLower).filter keptChar)) =
      collapseRunsAux (fun c => c == '-') '-' false
        (collapseRuns isJsSpace '-' ((l.map Char.toLower).filter keptChar)) := rfl
  have h3nd : noDoubleHyphen (collapseRuns (fun c => c == '-') '-'
      (collapseRuns isJsSpace '-' ((l.map Char.toLower).filter keptChar))) = true := by
    rw [haux3]
    exact (collapseHyphens_ok _ false).1
  have h4nd := noDoubleHyphen_stripLead _ h3nd
  have h5nd : noDoubleHyphen (stripTrailHyphen (stripLeadHyphen
      (collapseRuns (fun c => c == '-') '-'
        (collapseRuns isJsSpace '-' ((l.map Char.toLower).filter keptChar))))) = true := by
    unfold stripTrailHyphen
    by_cases h : (stripLeadHyphen (collapseRuns (fun c => c == '-') '-'
        (collapseRuns isJsSpace '-' ((l.map Char.toLower).filter keptChar)))).getLast? =
        some '-'
    · rw [if_pos h]
      exact noDoubleHyphen_dropLast _ h4nd
    · rw [if_neg h]
      exact h4nd
  have h4h := headIsHyphen_stripLead _ h3nd
  have h5h : headIsHyphen (stripTrailHyphen (stripLeadHyphen
      (collapseRuns (fun c => c == '-') '-'
        (collapseRuns isJsSpace '-' ((l.map Char.toLower).filter keptChar))))) = false := by
    unfold stripTrailHyphen
    by_cases h : (stripLeadHyphen (collapseRuns (fun c => c == '-') '-'
        (collapseRuns isJsSpace '-' ((l.map Char.toLower).filter keptChar)))).getLast? =
        some '-'
    · rw [if_pos h]
      exact headIsHyphen_dropLast _ h4h
    · rw [if_neg h]
      exact h4h
  refine ⟨?_, ?_, ?_, ?_⟩
  · rw [List.length_take]
    exact Nat.min_le_left 30 _
  · rw [List.all_eq_true]
    intro c hc
    have hc4 := List.take_subset 30 _ hc
    have hc3 := stripLeadHyphen_subset _ (stripTrailHyphen_subset _ hc4)
    rw [haux3] at hc3
    rcases mem_collapseRunsAux (fun c => c == '-') '-' _ false c hc3 with rfl | ⟨hnh, hc2⟩
    · rfl
    · rw [haux2] at hc2
      rcases mem_collapseRunsAux isJsSpace '-' _ false c hc2 with rfl | ⟨hns, hc1⟩
      · rfl
      · exact kept_not_space_subdomain c (List.mem_filter.mp hc1).2 hns
  · exact noDoubleHyphen_take _ 30 h5nd
  · exact headIsHyphen_take _ 30 (by decide) h5h

/-- C10: for every businessName the sanitised subdomain has length at most 30,
consists only of lowercase letters, digits and hyphens, never holds two
consecutive hyphens and never begins with one; the output can still be shorter
than the 3 characters validateSubdomain requires, and the final truncation can
leave a trailing hyphen. -/
theorem sanitizeSubdomain_shape :
    (∀ s : String,
      (sanitizeSubdomain s).length ≤ 30 ∧
      (sanitizeSubdomain s).data.all subdomainChar = true ∧
      noDoubleHyphen (sanitizeSubdomain s).data = true ∧
      headIsHyphen (sanitizeSubdomain s).data = false) ∧
    validateSubdomain (sanitizeSubdomain "ab") = false ∧
    (sanitizeSubdomain "aaaaaaaaaaaaaaaaaaaaaaaaaaaaa bcd").data.getLast? =
      some '-' := by
  refine ⟨fun s => ?_, by rfl, by rfl⟩
  have h := sanitizeL_shape s.data
  exact ⟨h.1, h.2.1, h.2.2.1, h.2.2.2⟩

end VibePos
